import Mathlib

/-!
Shallow embedding of `lib/layers.py` (vocal-remover): building-block neural
network layers. Feature tensors are 4-dimensional (batch, channel, height,
width) arrays of rationals (the embedding idealises IEEE floats as ℚ; all
claims settled here are about shapes, dataflow and determinism, none about
rounding). Fallible framework operations (convolution on a channel-count
mismatch, interpolation of an empty tensor, concatenation of mismatched
shapes) return `Option`, mirroring the exceptions PyTorch raises.
-/

/-- A feature tensor: shape (bsz, ch, ht, wd) plus the element map.
Indices outside the shape are junk; operations only read in-range indices. -/
structure Tensor where
  bsz : Nat
  ch : Nat
  ht : Nat
  wd : Nat
  data : Nat → Nat → Nat → Nat → ℚ

/-- Standard convolution output-size formula:
floor((size + 2*pad - dilation*(ksize-1) - 1) / stride) + 1, for one
spatial dimension.  (In ℕ; callers check `dilation*(ksize-1)+1 ≤ size + 2*pad`
so the subtraction does not truncate, exactly the condition under which
PyTorch does not raise "output size too small".) -/
def convOutDim (size ksize stride pad dilation : Nat) : Nat :=
  (size + 2 * pad - (dilation * (ksize - 1) + 1)) / stride + 1

/-- Read input pixel for a convolution with zero padding `p`: position `pi_`
(resp. `pj_`) counts from the left edge of the padded tensor. Out-of-range
reads give the zero padding value. -/
def padRead (x : Tensor) (b c pi_ pj_ p : Nat) : ℚ :=
  if p ≤ pi_ ∧ pi_ - p < x.ht ∧ p ≤ pj_ ∧ pj_ - p < x.wd then
    x.data b c (pi_ - p) (pj_ - p)
  else 0

/-- The output tensor of a (possibly grouped, bias-free) 2D convolution,
`torch.nn.Conv2d(nin, nout, ksize, stride, pad, dilation, groups, bias=False)`.
Output channel `o` belongs to group `o / (nout / g)` and draws only from the
`nin / g` input channels of that group. -/
def convTensor (nin nout ksize stride pad dilation g : Nat)
    (w : Nat → Nat → Nat → Nat → ℚ) (x : Tensor) : Tensor :=
  { bsz := x.bsz
    ch := nout
    ht := convOutDim x.ht ksize stride pad dilation
    wd := convOutDim x.wd ksize stride pad dilation
    data := fun b o i j =>
      Finset.sum (Finset.range (nin / g)) fun ci =>
        Finset.sum (Finset.range ksize) fun ki =>
          Finset.sum (Finset.range ksize) fun kj =>
            w o ci ki kj *
              padRead x b (o / (nout / g) * (nin / g) + ci)
                (i * stride + ki * dilation) (j * stride + kj * dilation) pad }

/-- Bias-free 2D convolution with runtime checks mirroring PyTorch:
the input channel count must equal `nin`, `nin` and `nout` must be divisible
by the group count, and the computed output size must be at least 1. -/
def conv2d (nin nout ksize stride pad dilation g : Nat)
    (w : Nat → Nat → Nat → Nat → ℚ) (x : Tensor) : Option Tensor :=
  if x.ch = nin ∧ nin % g = 0 ∧ nout % g = 0 ∧ g ≠ 0 ∧ stride ≠ 0 ∧
      dilation * (ksize - 1) + 1 ≤ x.ht + 2 * pad ∧
      dilation * (ksize - 1) + 1 ≤ x.wd + 2 * pad then
    some (convTensor nin nout ksize stride pad dilation g w x)
  else none

/-- Batch normalization in inference mode: with frozen running statistics the
per-channel transform ((v - mean)/sqrt(var+eps))*gamma + beta folds into one
affine map per channel, carried here as `scale`/`shift`. Shape-preserving. -/
def bn2d (scale shift : Nat → ℚ) (x : Tensor) : Tensor :=
  { x with data := fun b c i j => scale c * x.data b c i j + shift c }

/-- Pointwise (elementwise) application of an activation. Shape-preserving. -/
def pointwise (f : ℚ → ℚ) (x : Tensor) : Tensor :=
  { x with data := fun b c i j => f (x.data b c i j) }

/-- `torch.nn.ReLU`. -/
def relu (q : ℚ) : ℚ := max q 0

/-- `torch.nn.LeakyReLU` with its default negative slope 0.01. -/
def leakyRelu (q : ℚ) : ℚ := if q < 0 then q / 100 else q

/-- Source coordinate of output index `i` for bilinear interpolation with
`align_corners=True`: i * (inN - 1) / (outN - 1). -/
def srcCoord (outN inN i : Nat) : ℚ :=
  if outN ≤ 1 then 0 else (i : ℚ) * ((inN : ℚ) - 1) / ((outN : ℚ) - 1)

/-- Bilinear resize to a given output size, `align_corners=True` semantics:
each output pixel interpolates the four source pixels around its source
coordinate. Total; callers guard against empty inputs/outputs. -/
def bilinearResize (outH outW : Nat) (x : Tensor) : Tensor :=
  { bsz := x.bsz
    ch := x.ch
    ht := outH
    wd := outW
    data := fun b c i j =>
      let ci : ℚ := srcCoord outH x.ht i
      let cj : ℚ := srcCoord outW x.wd j
      let i0 : Nat := (Int.floor ci).toNat
      let j0 : Nat := (Int.floor cj).toNat
      let i1 : Nat := min (i0 + 1) (x.ht - 1)
      let j1 : Nat := min (j0 + 1) (x.wd - 1)
      let fi : ℚ := ci - (i0 : ℚ)
      let fj : ℚ := cj - (j0 : ℚ)
      (1 - fi) * (1 - fj) * x.data b c i0 j0 +
        (1 - fi) * fj * x.data b c i0 j1 +
        fi * (1 - fj) * x.data b c i1 j0 +
        fi * fj * x.data b c i1 j1 }

/-- `F.interpolate(x, scale_factor=2, mode='bilinear', align_corners=True)`:
doubles both spatial dimensions. PyTorch raises on an empty input. -/
def interpolate2 (x : Tensor) : Option Tensor :=
  if 1 ≤ x.ht ∧ 1 ≤ x.wd then some (bilinearResize (2 * x.ht) (2 * x.wd) x)
  else none

/-- `F.interpolate(x, size=(outH, outW), mode='bilinear', align_corners=True)`.
PyTorch raises on an empty input or an empty requested size. -/
def interpolateTo (outH outW : Nat) (x : Tensor) : Option Tensor :=
  if 1 ≤ x.ht ∧ 1 ≤ x.wd ∧ 1 ≤ outH ∧ 1 ≤ outW then
    some (bilinearResize outH outW x)
  else none

/-- `torch.nn.AdaptiveAvgPool2d((1, 1))`: global average pool to 1×1.
PyTorch raises on an empty input. -/
def adaptiveAvgPool1 (x : Tensor) : Option Tensor :=
  if 1 ≤ x.ht ∧ 1 ≤ x.wd then
    some { bsz := x.bsz
           ch := x.ch
           ht := 1
           wd := 1
           data := fun b c _ _ =>
             (Finset.sum (Finset.range x.ht) fun i =>
               Finset.sum (Finset.range x.wd) fun j => x.data b c i j) /
               ((x.ht * x.wd : Nat) : ℚ) }
  else none

/-- `torch.cat([x, y], dim=1)`: concatenation along the channel axis; all
other dimensions must agree. -/
def catTensor (x y : Tensor) : Tensor :=
  { bsz := x.bsz
    ch := x.ch + y.ch
    ht := x.ht
    wd := x.wd
    data := fun b c i j =>
      if c < x.ch then x.data b c i j else y.data b (c - x.ch) i j }

/-- `torch.cat([x, y], dim=1)`: concatenation along the channel axis; all
other dimensions must agree (PyTorch raises otherwise). -/
def cat2 (x y : Tensor) : Option Tensor :=
  if x.bsz = y.bsz ∧ x.ht = y.ht ∧ x.wd = y.wd then some (catTensor x y)
  else none

/-- Modelled from the spec: `spec_utils.crop_center` lives in
`lib/spec_utils.py`, which is not under src/.  Per the spec (section 6 and
4.5), it center-crops the oversized tensor `x` to the reference tensor `t`'s
spatial dimensions, trimming symmetrically (odd leftover biased to one side);
it requires `x` to be at least as large as `t` in both spatial dimensions. -/
def cropTensor (x t : Tensor) : Tensor :=
  { bsz := x.bsz
    ch := x.ch
    ht := t.ht
    wd := t.wd
    data := fun b c i j =>
      x.data b c (i + (x.ht - t.ht) / 2) (j + (x.wd - t.wd) / 2) }

/-- Modelled from the spec (continued): the fallible entry point of
`crop_center`, failing when the tensor to crop is smaller than the
reference. -/
def crop_center (x t : Tensor) : Option Tensor :=
  if t.ht ≤ x.ht ∧ t.wd ≤ x.wd then some (cropTensor x t)
  else none

/-- `torch.nn.Dropout2d(p)`: in training mode zeroes whole (batch, channel)
slices selected by the Bernoulli `mask` and rescales the rest by 1/(1-p);
in inference (eval) mode it is the identity. The mask stands for the
framework's random-number stream. -/
def dropout2d (p : ℚ) (training : Bool) (mask : Nat → Nat → Bool)
    (x : Tensor) : Tensor :=
  cond training
    { x with data := fun b c i j =>
        if mask b c then 0 else x.data b c i j / (1 - p) }
    x

/-- Learned parameters of one convolution + batch-norm unit: the convolution
weight and the folded inference-mode batch-norm affine map. -/
structure CBAWeights where
  w : Nat → Nat → Nat → Nat → ℚ
  scale : Nat → ℚ
  shift : Nat → ℚ

/-- `Conv2DBNActiv`: bias-free Conv2d → BatchNorm2d → activation
(`nn.Sequential` in the source). Configuration mirrors the constructor
arguments `(nin, nout, ksize, stride, pad, dilation, activ)`. -/
structure Conv2DBNActiv where
  nin : Nat
  nout : Nat
  ksize : Nat
  stride : Nat
  pad : Nat
  dilation : Nat
  activ : ℚ → ℚ
  p : CBAWeights

/-- Forward pass of `Conv2DBNActiv.__call__`. -/
def Conv2DBNActiv.forward (m : Conv2DBNActiv) (x : Tensor) : Option Tensor :=
  (conv2d m.nin m.nout m.ksize m.stride m.pad m.dilation 1 m.p.w x).map
    (fun h => pointwise m.activ (bn2d m.p.scale m.p.shift h))

/-- `SeperableConv2DBNActiv`: depthwise Conv2d (groups = nin, nin → nin) →
pointwise 1×1 Conv2d (nin → nout) → BatchNorm2d → activation. `wd` is the
depthwise kernel, `wp` the pointwise kernel. -/
structure SeperableConv2DBNActiv where
  nin : Nat
  nout : Nat
  ksize : Nat
  stride : Nat
  pad : Nat
  dilation : Nat
  activ : ℚ → ℚ
  wd : Nat → Nat → Nat → Nat → ℚ
  wp : Nat → Nat → Nat → Nat → ℚ
  scale : Nat → ℚ
  shift : Nat → ℚ

/-- Forward pass of `SeperableConv2DBNActiv.__call__`. -/
def SeperableConv2DBNActiv.forward (m : SeperableConv2DBNActiv) (x : Tensor) :
    Option Tensor :=
  (conv2d m.nin m.nin m.ksize m.stride m.pad m.dilation m.nin m.wd x).bind
    fun h1 => (conv2d m.nin m.nout 1 1 0 1 1 m.wp h1).map
      fun h2 => pointwise m.activ (bn2d m.scale m.shift h2)

/-- `Encoder`: two stacked `Conv2DBNActiv` blocks. -/
structure Encoder where
  conv1 : Conv2DBNActiv
  conv2 : Conv2DBNActiv

/-- `Encoder.__init__(nin, nout, ksize, stride, pad, activ)`: the first block
runs at stride 1 (producing the skip), the second at the configured stride. -/
def Encoder.init (nin nout ksize stride pad : Nat) (activ : ℚ → ℚ)
    (p1 p2 : CBAWeights) : Encoder :=
  { conv1 := ⟨nin, nout, ksize, 1, pad, 1, activ, p1⟩
    conv2 := ⟨nout, nout, ksize, stride, pad, 1, activ, p2⟩ }

/-- `Encoder.__call__`: `skip = conv1(x); h = conv2(skip); return h, skip`. -/
def Encoder.forward (m : Encoder) (x : Tensor) : Option (Tensor × Tensor) :=
  (m.conv1.forward x).bind fun skip =>
    (m.conv2.forward skip).map fun h => (h, skip)

/-- `Decoder`: upsample ×2, optionally crop to a skip tensor, convolve,
optionally drop out. The constructor ignores its `stride` argument and always
builds the convolution at stride 1, with the default `nn.ReLU` activation. -/
structure Decoder where
  conv : Conv2DBNActiv
  dropout : Bool

/-- `Decoder.__init__(nin, nout, ksize, stride, pad, dropout)`. -/
def Decoder.init (nin nout ksize stride pad : Nat) (dropout : Bool)
    (p : CBAWeights) : Decoder :=
  { conv := ⟨nin, nout, ksize, 1, pad, 1, relu, p⟩, dropout := dropout }

/-- `Decoder.__call__(x, skip=None)`: bilinear ×2 upsample with aligned
corners, center-crop to `skip` when one is given, then `Conv2DBNActiv`, then
`Dropout2d(0.1)` when configured. `training`/`mask` model the framework's
train/eval mode and dropout randomness. -/
def Decoder.forward (m : Decoder) (training : Bool) (mask : Nat → Nat → Bool)
    (x : Tensor) (skip : Option Tensor) : Option Tensor :=
  (interpolate2 x).bind fun x1 =>
    (match skip with
      | some s => crop_center x1 s
      | none => some x1).bind fun x2 =>
      (m.conv.forward x2).map fun h =>
        cond m.dropout (dropout2d (1 / 10) training mask h) h

/-- `DecoderV2`: concatenate the skip (if any) before any resizing, project
with a 1×1 convolution, upsample ×2, convolve again, optionally drop out. -/
structure DecoderV2 where
  conv1 : Conv2DBNActiv
  conv2 : Conv2DBNActiv
  dropout : Bool

/-- `DecoderV2.__init__(nin, nout, ksize, stride, pad, dropout)`: `conv1` is
the 1×1 projection (`Conv2DBNActiv(nin, nout, 1, 1, 0)`), `conv2` the
spatially-sized block (`Conv2DBNActiv(nout, nout, ksize, 1, pad)`), both with
the default `nn.ReLU`. -/
def DecoderV2.init (nin nout ksize stride pad : Nat) (dropout : Bool)
    (p1 p2 : CBAWeights) : DecoderV2 :=
  { conv1 := ⟨nin, nout, 1, 1, 0, 1, relu, p1⟩
    conv2 := ⟨nout, nout, ksize, 1, pad, 1, relu, p2⟩
    dropout := dropout }

/-- `DecoderV2.__call__(x, skip=None)`: `cat([x, skip], dim=1)` when a skip is
given (no cropping), then `conv1`, bilinear ×2 upsample with aligned corners,
`conv2`, and `Dropout2d(0.1)` when configured. -/
def DecoderV2.forward (m : DecoderV2) (training : Bool)
    (mask : Nat → Nat → Bool) (x : Tensor) (skip : Option Tensor) :
    Option Tensor :=
  (match skip with
    | some s => cat2 x s
    | none => some x).bind fun x1 =>
    (m.conv1.forward x1).bind fun h1 =>
      (interpolate2 h1).bind fun h2 =>
        (m.conv2.forward h2).map fun h =>
          cond m.dropout (dropout2d (1 / 10) training mask h) h

/-- `ASPPModule`: five parallel branches (global pool + 1×1 conv + upsample;
1×1 conv; three separable convs at the configured dilations), concatenated
and bottlenecked by a 1×1 conv plus `Dropout2d(0.1)`. -/
structure ASPPModule where
  nin : Nat
  d1 : Nat
  d2 : Nat
  d3 : Nat
  conv1 : Conv2DBNActiv
  conv2 : Conv2DBNActiv
  conv3 : SeperableConv2DBNActiv
  conv4 : SeperableConv2DBNActiv
  conv5 : SeperableConv2DBNActiv
  bottleneck : Conv2DBNActiv

/-- `ASPPModule.__init__(nin, dilations=(4, 8, 16))`: all units use
`nn.LeakyReLU`; branch convs are `nin → nin`; the bottleneck is
`Conv2DBNActiv(nin * 5, nin, 1, 1, 0)`. The separable branch at dilation `d`
uses padding `d`. -/
def ASPPModule.init (nin d1 d2 d3 : Nat) (p1 p2 pb : CBAWeights)
    (w3d w3p w4d w4p w5d w5p : Nat → Nat → Nat → Nat → ℚ)
    (sc3 sh3 sc4 sh4 sc5 sh5 : Nat → ℚ) : ASPPModule :=
  { nin := nin, d1 := d1, d2 := d2, d3 := d3
    conv1 := ⟨nin, nin, 1, 1, 0, 1, leakyRelu, p1⟩
    conv2 := ⟨nin, nin, 1, 1, 0, 1, leakyRelu, p2⟩
    conv3 := ⟨nin, nin, 3, 1, d1, d1, leakyRelu, w3d, w3p, sc3, sh3⟩
    conv4 := ⟨nin, nin, 3, 1, d2, d2, leakyRelu, w4d, w4p, sc4, sh4⟩
    conv5 := ⟨nin, nin, 3, 1, d3, d3, leakyRelu, w5d, w5p, sc5, sh5⟩
    bottleneck := ⟨nin * 5, nin, 1, 1, 0, 1, leakyRelu, pb⟩ }

/-- `ASPPModule.forward`: branch 1 is `AdaptiveAvgPool2d((1,1))` →
`Conv2DBNActiv` → bilinear upsample back to the input size; branches 2–5 run
directly on `x`; the five features are concatenated on the channel axis and
fed to the bottleneck, whose `Dropout2d(0.1)` is always present. -/
def ASPPModule.forward (m : ASPPModule) (training : Bool)
    (mask : Nat → Nat → Bool) (x : Tensor) : Option Tensor :=
  (adaptiveAvgPool1 x).bind fun g =>
    (m.conv1.forward g).bind fun g1 =>
      (interpolateTo x.ht x.wd g1).bind fun feat1 =>
        (m.conv2.forward x).bind fun feat2 =>
          (m.conv3.forward x).bind fun feat3 =>
            (m.conv4.forward x).bind fun feat4 =>
              (m.conv5.forward x).bind fun feat5 =>
                (cat2 feat1 feat2).bind fun c12 =>
                  (cat2 c12 feat3).bind fun c13 =>
                    (cat2 c13 feat4).bind fun c14 =>
                      (cat2 c14 feat5).bind fun out =>
                        (m.bottleneck.forward out).map fun b =>
                          dropout2d (1 / 10) training mask b

/-- Python-level exceptions raised by the framework calls modelled in this
file: `TypeError` from `nn.Conv2d` when `in_channels` is `None`, and
`TypeError` from `Tensor.max` when `dim` is a tuple instead of an int. -/
inductive PyError where
  | typeErrorNoneInChannels : PyError
  | typeErrorMaxDimTuple : PyError
  | unreachable : PyError

/-- Model of `torch.nn.Conv2d.__init__`: PyTorch requires `in_channels` to be
an integer and has no lazy binding for `nn.Conv2d` (only `nn.LazyConv2d`
binds the channel count at first use); passing `None` raises a `TypeError`
inside the constructor (the `in_channels % groups` check). -/
def nnConv2dInit (inChannels : Option Nat) (nout ksize stride pad : Nat) :
    Except PyError Nat :=
  match inChannels with
  | some n => Except.ok n
  | none => Except.error PyError.typeErrorNoneInChannels

/-- `CBAM.__init__(ch, ratio=16)`: the two `nn.Linear` layers construct fine;
`nn.Conv2d(None, 1, 3, 1, 1, bias=False)` raises. The constructor therefore
always fails, whatever `ch` and the reduction `rdim` are. -/
def CBAM.init (ch rdim : Nat) : Except PyError Nat :=
  nnConv2dInit none 1 3 1 1

/-- Model of `torch.Tensor.max(dim=...)`: torch accepts a single integer
`dim` only; a tuple raises a `TypeError` at argument binding. Only the
check is modelled: no reachable call in this file takes the single-dim
branch (`CBAM.__init__` itself raises, and the first `max` in
`CBAM.__call__` already passes the tuple `(2, 3)`). -/
def tensorMaxDimArg (x : Tensor) (dims : List Nat) : Except PyError Unit :=
  match dims with
  | [_] => Except.ok ()
  | _ => Except.error PyError.typeErrorMaxDimTuple

/-- `CBAM.__call__(x)`: the first statement `gap = x.mean(dim=(2, 3))` is
valid torch; the second, `gmp = x.max(dim=(2, 3))`, raises a `TypeError`
(tuple `dim`), so control never reaches the attention arithmetic. The
remainder of the body is therefore not modelled: execution cannot get past
the raise (and the module cannot even be constructed, see `CBAM.init`). -/
def CBAM.forward (sqzW extW : Nat → Nat → ℚ)
    (convW : Nat → Nat → Nat → Nat → ℚ) (x : Tensor) :
    Except PyError Tensor := do
  let _gap : Nat → Nat → ℚ := fun b c =>
    (Finset.sum (Finset.range x.ht) fun i =>
      Finset.sum (Finset.range x.wd) fun j => x.data b c i j) /
      ((x.ht * x.wd : Nat) : ℚ)
  let _ ← tensorMaxDimArg x [2, 3]
  Except.error PyError.unreachable

/- Helper lemmas shared by the claim proofs. -/

theorem conv2d_eq_some (nin nout ksize stride pad dilation g : Nat)
    (w : Nat → Nat → Nat → Nat → ℚ) (x : Tensor)
    (h1 : x.ch = nin) (h2 : nin % g = 0) (h3 : nout % g = 0) (h4 : g ≠ 0)
    (h5 : stride ≠ 0)
    (h6 : dilation * (ksize - 1) + 1 ≤ x.ht + 2 * pad)
    (h7 : dilation * (ksize - 1) + 1 ≤ x.wd + 2 * pad) :
    conv2d nin nout ksize stride pad dilation g w x =
      some (convTensor nin nout ksize stride pad dilation g w x) := by
  unfold conv2d
  rw [if_pos ⟨h1, h2, h3, h4, h5, h6, h7⟩]

theorem cba_forward_eq (m : Conv2DBNActiv) (x : Tensor)
    (h1 : x.ch = m.nin) (h5 : m.stride ≠ 0)
    (h6 : m.dilation * (m.ksize - 1) + 1 ≤ x.ht + 2 * m.pad)
    (h7 : m.dilation * (m.ksize - 1) + 1 ≤ x.wd + 2 * m.pad) :
    m.forward x = some (pointwise m.activ (bn2d m.p.scale m.p.shift
      (convTensor m.nin m.nout m.ksize m.stride m.pad m.dilation 1 m.p.w x))) := by
  unfold Conv2DBNActiv.forward
  rw [conv2d_eq_some m.nin m.nout m.ksize m.stride m.pad m.dilation 1 m.p.w x
    h1 (Nat.mod_one _) (Nat.mod_one _) one_ne_zero h5 h6 h7]
  rfl

theorem convOutDim_k3 (n : Nat) (h : 1 ≤ n) : convOutDim n 3 1 1 1 = n := by
  unfold convOutDim
  simp only [Nat.div_one]
  omega

theorem convOutDim_k1 (n : Nat) (h : 1 ≤ n) : convOutDim n 1 1 0 1 = n := by
  unfold convOutDim
  simp only [Nat.div_one]
  omega

theorem convOutDim_dil (n d : Nat) (h : 1 ≤ n) : convOutDim n 3 1 d d = n := by
  unfold convOutDim
  simp only [Nat.div_one]
  omega

theorem dropout2d_bsz (p : ℚ) (t : Bool) (m : Nat → Nat → Bool) (x : Tensor) :
    (dropout2d p t m x).bsz = x.bsz := by cases t <;> rfl

theorem dropout2d_ch (p : ℚ) (t : Bool) (m : Nat → Nat → Bool) (x : Tensor) :
    (dropout2d p t m x).ch = x.ch := by cases t <;> rfl

theorem dropout2d_ht (p : ℚ) (t : Bool) (m : Nat → Nat → Bool) (x : Tensor) :
    (dropout2d p t m x).ht = x.ht := by cases t <;> rfl

theorem dropout2d_wd (p : ℚ) (t : Bool) (m : Nat → Nat → Bool) (x : Tensor) :
    (dropout2d p t m x).wd = x.wd := by cases t <;> rfl

theorem dropout2d_eval (p : ℚ) (m : Nat → Nat → Bool) (x : Tensor) :
    dropout2d p false m x = x := rfl

/-- Zero-filled tensor of a given shape, used to instantiate theorems. -/
def tZero (n c h w : Nat) : Tensor := ⟨n, c, h, w, fun _ _ _ _ => 0⟩

/-- Zero learned parameters, used to instantiate theorems. -/
def wZero : CBAWeights := ⟨fun _ _ _ _ => 0, fun _ => 0, fun _ => 0⟩

theorem interpolate2_eq (x : Tensor) (hh : 1 ≤ x.ht) (hw : 1 ≤ x.wd) :
    interpolate2 x = some (bilinearResize (2 * x.ht) (2 * x.wd) x) := by
  unfold interpolate2
  rw [if_pos ⟨hh, hw⟩]

theorem crop_center_shape (x t : Tensor) (hh : t.ht ≤ x.ht) (hw : t.wd ≤ x.wd) :
    ∃ y, crop_center x t = some y ∧ y.bsz = x.bsz ∧ y.ch = x.ch ∧
      y.ht = t.ht ∧ y.wd = t.wd := by
  unfold crop_center
  rw [if_pos ⟨hh, hw⟩]
  exact ⟨_, rfl, rfl, rfl, rfl, rfl⟩

/-- C1: For every valid input tensor, `Encoder` (built with the default
ksize=3, pad=1) returns the pair (downsampled output, skip) where the skip is
produced by `conv1`, whose stride is fixed to 1 so the skip keeps the input
spatial size, and the output is produced by applying `conv2` at the
configured stride to the skip; moreover `convOutDim 64 3 2 1 1 = 32` and
`convOutDim 64 3 1 1 1 = 64`, so a 1×32×64×64 input through
Encoder(32, 64, stride=2) yields a 1×64×64×64 skip and a 1×64×32×32 output. -/
theorem encoder_skip_and_downsample (nin nout stride : Nat) (activ : ℚ → ℚ)
    (p1 p2 : CBAWeights) (x : Tensor) (hc : x.ch = nin) (hh : 1 ≤ x.ht)
    (hw : 1 ≤ x.wd) (hs : stride ≠ 0) :
    (∃ hOut skip,
      (Encoder.init nin nout 3 stride 1 activ p1 p2).forward x =
        some (hOut, skip) ∧
      (Encoder.init nin nout 3 stride 1 activ p1 p2).conv1.forward x =
        some skip ∧
      (Encoder.init nin nout 3 stride 1 activ p1 p2).conv2.forward skip =
        some hOut ∧
      (Encoder.init nin nout 3 stride 1 activ p1 p2).conv1.stride = 1 ∧
      (Encoder.init nin nout 3 stride 1 activ p1 p2).conv2.stride = stride ∧
      skip.bsz = x.bsz ∧ skip.ch = nout ∧ skip.ht = x.ht ∧ skip.wd = x.wd ∧
      hOut.bsz = x.bsz ∧ hOut.ch = nout ∧
      hOut.ht = convOutDim x.ht 3 stride 1 1 ∧
      hOut.wd = convOutDim x.wd 3 stride 1 1) ∧
    convOutDim 64 3 2 1 1 = 32 ∧ convOutDim 64 3 1 1 1 = 64 := by
  constructor
  · set e := Encoder.init nin nout 3 stride 1 activ p1 p2 with he
    have h1 : e.conv1.forward x = some (pointwise activ (bn2d p1.scale p1.shift
        (convTensor nin nout 3 1 1 1 1 p1.w x))) := by
      apply cba_forward_eq
      · exact hc
      · exact one_ne_zero
      · show 1 * (3 - 1) + 1 ≤ x.ht + 2 * 1
        omega
      · show 1 * (3 - 1) + 1 ≤ x.wd + 2 * 1
        omega
    set skip := pointwise activ (bn2d p1.scale p1.shift
      (convTensor nin nout 3 1 1 1 1 p1.w x)) with hskip
    have hskh : skip.ht = x.ht := convOutDim_k3 x.ht hh
    have hskw : skip.wd = x.wd := convOutDim_k3 x.wd hw
    have h2 : e.conv2.forward skip = some (pointwise activ
        (bn2d p2.scale p2.shift
          (convTensor nout nout 3 stride 1 1 1 p2.w skip))) := by
      apply cba_forward_eq
      · rfl
      · exact hs
      · show 1 * (3 - 1) + 1 ≤ skip.ht + 2 * 1
        omega
      · show 1 * (3 - 1) + 1 ≤ skip.wd + 2 * 1
        omega
    refine ⟨_, skip, ?_, h1, h2, rfl, rfl, rfl, rfl, hskh, hskw, rfl, rfl,
      ?_, ?_⟩
    · unfold Encoder.forward
      rw [h1, Option.some_bind, h2, Option.map_some']
    · show convOutDim skip.ht 3 stride 1 1 = convOutDim x.ht 3 stride 1 1
      rw [hskh]
    · show convOutDim skip.wd 3 stride 1 1 = convOutDim x.wd 3 stride 1 1
      rw [hskw]
  · constructor <;> rfl

/-- Witness for C1 at the spec's concrete scenario: a 1×32×64×64 zero tensor
through Encoder(32, 64, stride=2) with zero weights. -/
theorem encoder_skip_and_downsample_witness :
    (∃ hOut skip,
      (Encoder.init 32 64 3 2 1 leakyRelu wZero wZero).forward
        (tZero 1 32 64 64) = some (hOut, skip) ∧
      (Encoder.init 32 64 3 2 1 leakyRelu wZero wZero).conv1.forward
        (tZero 1 32 64 64) = some skip ∧
      (Encoder.init 32 64 3 2 1 leakyRelu wZero wZero).conv2.forward skip =
        some hOut ∧
      (Encoder.init 32 64 3 2 1 leakyRelu wZero wZero).conv1.stride = 1 ∧
      (Encoder.init 32 64 3 2 1 leakyRelu wZero wZero).conv2.stride = 2 ∧
      skip.bsz = (tZero 1 32 64 64).bsz ∧ skip.ch = 64 ∧
      skip.ht = (tZero 1 32 64 64).ht ∧ skip.wd = (tZero 1 32 64 64).wd ∧
      hOut.bsz = (tZero 1 32 64 64).bsz ∧ hOut.ch = 64 ∧
      hOut.ht = convOutDim (tZero 1 32 64 64).ht 3 2 1 1 ∧
      hOut.wd = convOutDim (tZero 1 32 64 64).wd 3 2 1 1) ∧
    convOutDim 64 3 2 1 1 = 32 ∧ convOutDim 64 3 1 1 1 = 64 :=
  encoder_skip_and_downsample 32 64 2 leakyRelu wZero wZero (tZero 1 32 64 64)
    rfl (by decide) (by decide) (by decide)

/-- C3 fails on the code: `CBAM.__init__` passes `None` as the `in_channels`
of `torch.nn.Conv2d`, which raises a `TypeError` in PyTorch (no lazy channel
binding exists for `nn.Conv2d`), so no CBAM instance can be constructed and
no call can return an output tensor at all. -/
theorem cbam_init_type_error (ch rdim : Nat) :
    CBAM.init ch rdim = Except.error PyError.typeErrorNoneInChannels := rfl

/-- C5 fails on the code: even with constructed parameters, the channel
attention stage `gmp = x.max(dim=(2, 3))` raises a `TypeError` (torch's
`Tensor.max` takes a single int `dim`, not a tuple), so `CBAM.__call__`
never computes the described attention. -/
theorem cbam_forward_type_error (sqzW extW : Nat → Nat → ℚ)
    (convW : Nat → Nat → Nat → Nat → ℚ) (x : Tensor) :
    CBAM.forward sqzW extW convW x =
      Except.error PyError.typeErrorMaxDimTuple := rfl

theorem condDropout_bsz (b t : Bool) (m : Nat → Nat → Bool) (p : ℚ)
    (x : Tensor) : (cond b (dropout2d p t m x) x).bsz = x.bsz := by
  cases b
  · rfl
  · exact dropout2d_bsz p t m x

theorem condDropout_ch (b t : Bool) (m : Nat → Nat → Bool) (p : ℚ)
    (x : Tensor) : (cond b (dropout2d p t m x) x).ch = x.ch := by
  cases b
  · rfl
  · exact dropout2d_ch p t m x

theorem condDropout_ht (b t : Bool) (m : Nat → Nat → Bool) (p : ℚ)
    (x : Tensor) : (cond b (dropout2d p t m x) x).ht = x.ht := by
  cases b
  · rfl
  · exact dropout2d_ht p t m x

theorem condDropout_wd (b t : Bool) (m : Nat → Nat → Bool) (p : ℚ)
    (x : Tensor) : (cond b (dropout2d p t m x) x).wd = x.wd := by
  cases b
  · rfl
  · exact dropout2d_wd p t m x

/-- C6: For every input tensor with `nin` channels (and a non-degenerate
configuration), `Conv2DBNActiv.forward` succeeds and equals the bias-free
convolution followed by batch normalization followed by the pointwise
activation; the output has exactly `nout` channels and spatial dimensions
given by the standard convolution output-size formula. -/
theorem conv2dbnactiv_formula (m : Conv2DBNActiv) (x : Tensor)
    (h1 : x.ch = m.nin) (h5 : m.stride ≠ 0)
    (h6 : m.dilation * (m.ksize - 1) + 1 ≤ x.ht + 2 * m.pad)
    (h7 : m.dilation * (m.ksize - 1) + 1 ≤ x.wd + 2 * m.pad) :
    ∃ y, m.forward x = some y ∧
      y = pointwise m.activ (bn2d m.p.scale m.p.shift
        (convTensor m.nin m.nout m.ksize m.stride m.pad m.dilation 1 m.p.w x)) ∧
      y.bsz = x.bsz ∧ y.ch = m.nout ∧
      y.ht = convOutDim x.ht m.ksize m.stride m.pad m.dilation ∧
      y.wd = convOutDim x.wd m.ksize m.stride m.pad m.dilation :=
  ⟨_, cba_forward_eq m x h1 h5 h6 h7, rfl, rfl, rfl, rfl, rfl⟩

/-- Witness for C6: a 3×3/stride 1/pad 1 block with 2 input and 3 output
channels on a 1×2×4×5 zero tensor. -/
theorem conv2dbnactiv_formula_witness :
    ∃ y, Conv2DBNActiv.forward ⟨2, 3, 3, 1, 1, 1, relu, wZero⟩
        (tZero 1 2 4 5) = some y ∧
      y = pointwise relu (bn2d wZero.scale wZero.shift
        (convTensor 2 3 3 1 1 1 1 wZero.w (tZero 1 2 4 5))) ∧
      y.bsz = 1 ∧ y.ch = 3 ∧
      y.ht = convOutDim 4 3 1 1 1 ∧ y.wd = convOutDim 5 3 1 1 1 :=
  conv2dbnactiv_formula ⟨2, 3, 3, 1, 1, 1, relu, wZero⟩ (tZero 1 2 4 5)
    rfl (by decide) (by decide) (by decide)

/-- C10: When `Decoder` is called with `skip=None` no cropping occurs: the
input is bilinearly upsampled to exactly twice its height and width and fed
straight to the convolution block, so with the default ksize=3, pad=1,
stride 1 configuration the output spatial dimensions are exactly twice the
input's. -/
theorem decoder_noskip_doubles (nin nout stride : Nat) (dflag training : Bool)
    (p : CBAWeights) (mask : Nat → Nat → Bool) (x : Tensor)
    (hc : x.ch = nin) (hh : 1 ≤ x.ht) (hw : 1 ≤ x.wd) :
    ∃ y, (Decoder.init nin nout 3 stride 1 dflag p).forward training mask x
        none = some y ∧
      y.bsz = x.bsz ∧ y.ch = nout ∧ y.ht = 2 * x.ht ∧ y.wd = 2 * x.wd := by
  have hcf : (Decoder.init nin nout 3 stride 1 dflag p).conv.forward
      (bilinearResize (2 * x.ht) (2 * x.wd) x) =
      some (pointwise relu (bn2d p.scale p.shift
        (convTensor nin nout 3 1 1 1 1 p.w
          (bilinearResize (2 * x.ht) (2 * x.wd) x)))) := by
    apply cba_forward_eq
    · exact hc
    · exact one_ne_zero
    · show 1 * (3 - 1) + 1 ≤ 2 * x.ht + 2 * 1
      omega
    · show 1 * (3 - 1) + 1 ≤ 2 * x.wd + 2 * 1
      omega
  refine ⟨cond dflag (dropout2d (1 / 10) training mask
      (pointwise relu (bn2d p.scale p.shift (convTensor nin nout 3 1 1 1 1 p.w
        (bilinearResize (2 * x.ht) (2 * x.wd) x)))))
      (pointwise relu (bn2d p.scale p.shift (convTensor nin nout 3 1 1 1 1 p.w
        (bilinearResize (2 * x.ht) (2 * x.wd) x)))), ?_, ?_, ?_, ?_, ?_⟩
  · simp only [Decoder.forward, interpolate2_eq x hh hw, Option.some_bind,
      hcf, Option.map_some']
    rfl
  · rw [condDropout_bsz]
    rfl
  · rw [condDropout_ch]
    rfl
  · rw [condDropout_ht]
    show convOutDim (2 * x.ht) 3 1 1 1 = 2 * x.ht
    exact convOutDim_k3 (2 * x.ht) (by omega)
  · rw [condDropout_wd]
    show convOutDim (2 * x.wd) 3 1 1 1 = 2 * x.wd
    exact convOutDim_k3 (2 * x.wd) (by omega)

/-- Witness for C10: Decoder(4, 8) without dropout, in eval mode, on a
1×4×5×6 zero tensor and no skip. -/
theorem decoder_noskip_doubles_witness :
    ∃ y, (Decoder.init 4 8 3 1 1 false wZero).forward false
        (fun _ _ => false) (tZero 1 4 5 6) none = some y ∧
      y.bsz = 1 ∧ y.ch = 8 ∧ y.ht = 2 * 5 ∧ y.wd = 2 * 6 :=
  decoder_noskip_doubles 4 8 1 false false wZero (fun _ _ => false)
    (tZero 1 4 5 6) rfl (by decide) (by decide)

theorem crop_center_eq (x t : Tensor) (hh : t.ht ≤ x.ht) (hw : t.wd ≤ x.wd) :
    crop_center x t = some (cropTensor x t) := by
  unfold crop_center
  rw [if_pos ⟨hh, hw⟩]

/-- C2: `Decoder` first upsamples by a fixed factor of 2 (bilinear, aligned
corners); when a skip tensor is supplied it center-crops the upsampled tensor
to the skip's spatial dimensions before the convolution, so with the default
ksize=3, pad=1, stride 1 convolution the output spatial size equals the
skip's spatial size exactly, for any skip no larger than the doubled
input. -/
theorem decoder_skip_crop_exact (nin nout stride : Nat) (dflag training : Bool)
    (p : CBAWeights) (mask : Nat → Nat → Bool) (x skip : Tensor)
    (hc : x.ch = nin) (hh : 1 ≤ x.ht) (hw : 1 ≤ x.wd)
    (hsh : 1 ≤ skip.ht) (hsw : 1 ≤ skip.wd)
    (hsh2 : skip.ht ≤ 2 * x.ht) (hsw2 : skip.wd ≤ 2 * x.wd) :
    ∃ y, (Decoder.init nin nout 3 stride 1 dflag p).forward training mask x
        (some skip) = some y ∧
      y.bsz = x.bsz ∧ y.ch = nout ∧ y.ht = skip.ht ∧ y.wd = skip.wd := by
  have hcf : (Decoder.init nin nout 3 stride 1 dflag p).conv.forward
      (cropTensor (bilinearResize (2 * x.ht) (2 * x.wd) x) skip) =
      some (pointwise relu (bn2d p.scale p.shift
        (convTensor nin nout 3 1 1 1 1 p.w
          (cropTensor (bilinearResize (2 * x.ht) (2 * x.wd) x) skip)))) := by
    apply cba_forward_eq
    · exact hc
    · exact one_ne_zero
    · show 1 * (3 - 1) + 1 ≤ skip.ht + 2 * 1
      omega
    · show 1 * (3 - 1) + 1 ≤ skip.wd + 2 * 1
      omega
  have hcrop : crop_center (bilinearResize (2 * x.ht) (2 * x.wd) x) skip =
      some (cropTensor (bilinearResize (2 * x.ht) (2 * x.wd) x) skip) :=
    crop_center_eq _ skip hsh2 hsw2
  refine ⟨cond dflag (dropout2d (1 / 10) training mask
      (pointwise relu (bn2d p.scale p.shift (convTensor nin nout 3 1 1 1 1 p.w
        (cropTensor (bilinearResize (2 * x.ht) (2 * x.wd) x) skip)))))
      (pointwise relu (bn2d p.scale p.shift (convTensor nin nout 3 1 1 1 1 p.w
        (cropTensor (bilinearResize (2 * x.ht) (2 * x.wd) x) skip)))),
    ?_, ?_, ?_, ?_, ?_⟩
  · simp only [Decoder.forward, interpolate2_eq x hh hw, Option.some_bind,
      hcrop, hcf, Option.map_some']
    rfl
  · rw [condDropout_bsz]
    rfl
  · rw [condDropout_ch]
    rfl
  · rw [condDropout_ht]
    show convOutDim skip.ht 3 1 1 1 = skip.ht
    exact convOutDim_k3 skip.ht hsh
  · rw [condDropout_wd]
    show convOutDim skip.wd 3 1 1 1 = skip.wd
    exact convOutDim_k3 skip.wd hsw

/-- Witness for C2: Decoder(4, 8) in eval mode on a 1×4×5×6 zero tensor with
a 1×4×9×11 skip (smaller than the 10×12 upsampled size, so the crop trims it
to 9×11). -/
theorem decoder_skip_crop_exact_witness :
    ∃ y, (Decoder.init 4 8 3 1 1 false wZero).forward false
        (fun _ _ => false) (tZero 1 4 5 6) (some (tZero 1 4 9 11)) = some y ∧
      y.bsz = 1 ∧ y.ch = 8 ∧ y.ht = (tZero 1 4 9 11).ht ∧
      y.wd = (tZero 1 4 9 11).wd :=
  decoder_skip_crop_exact 4 8 1 false false wZero (fun _ _ => false)
    (tZero 1 4 5 6) (tZero 1 4 9 11) rfl (by decide) (by decide) (by decide)
    (by decide) (by decide) (by decide)

theorem cat2_eq (x y : Tensor) (hb : x.bsz = y.bsz) (hh : x.ht = y.ht)
    (hw : x.wd = y.wd) : cat2 x y = some (catTensor x y) := by
  unfold cat2
  rw [if_pos ⟨hb, hh, hw⟩]

/-- C7: `DecoderV2`, when a skip tensor is supplied, concatenates it with the
input along the channel axis before any resizing and performs no cropping
(the concatenation requires equal spatial dimensions and keeps the input's
resolution); it then applies the 1×1 projection `conv1`, upsamples by 2
(bilinear, aligned corners), applies the ksize×ksize `conv2`, and optionally
applies channel-wise dropout at rate 0.1. -/
theorem decoderv2_concat_before_resize (nin nout ksize stride pad : Nat)
    (dflag training : Bool) (p1 p2 : CBAWeights) (mask : Nat → Nat → Bool)
    (x skip : Tensor) (hb : x.bsz = skip.bsz) (hhs : x.ht = skip.ht)
    (hws : x.wd = skip.wd) (hc : x.ch + skip.ch = nin)
    (hh : 1 ≤ x.ht) (hw : 1 ≤ x.wd) (hk0 : 1 ≤ ksize)
    (hk1 : ksize ≤ 2 * x.ht + 2 * pad) (hk2 : ksize ≤ 2 * x.wd + 2 * pad) :
    cat2 x skip = some (catTensor x skip) ∧
    (catTensor x skip).ht = x.ht ∧ (catTensor x skip).wd = x.wd ∧
    (catTensor x skip).ch = x.ch + skip.ch ∧
    ∃ y, (DecoderV2.init nin nout ksize stride pad dflag p1 p2).forward
        training mask x (some skip) = some y ∧
      y.bsz = x.bsz ∧ y.ch = nout ∧
      y.ht = convOutDim (2 * x.ht) ksize 1 pad 1 ∧
      y.wd = convOutDim (2 * x.wd) ksize 1 pad 1 := by
  have e1 : convOutDim x.ht 1 1 0 1 = x.ht := convOutDim_k1 x.ht hh
  have e2 : convOutDim x.wd 1 1 0 1 = x.wd := convOutDim_k1 x.wd hw
  have hcat : cat2 x skip = some (catTensor x skip) := cat2_eq x skip hb hhs hws
  have h1 : (DecoderV2.init nin nout ksize stride pad dflag p1 p2).conv1.forward
      (catTensor x skip) = some (pointwise relu (bn2d p1.scale p1.shift
        (convTensor nin nout 1 1 0 1 1 p1.w (catTensor x skip)))) := by
    apply cba_forward_eq
    · exact hc
    · exact one_ne_zero
    · show 1 * (1 - 1) + 1 ≤ x.ht + 2 * 0
      omega
    · show 1 * (1 - 1) + 1 ≤ x.wd + 2 * 0
      omega
  have hint : interpolate2 (pointwise relu (bn2d p1.scale p1.shift
      (convTensor nin nout 1 1 0 1 1 p1.w (catTensor x skip)))) =
      some (bilinearResize
        (2 * convOutDim x.ht 1 1 0 1) (2 * convOutDim x.wd 1 1 0 1)
        (pointwise relu (bn2d p1.scale p1.shift
          (convTensor nin nout 1 1 0 1 1 p1.w (catTensor x skip))))) := by
    apply interpolate2_eq
    · show 1 ≤ convOutDim x.ht 1 1 0 1
      omega
    · show 1 ≤ convOutDim x.wd 1 1 0 1
      omega
  have h2 : (DecoderV2.init nin nout ksize stride pad dflag p1 p2).conv2.forward
      (bilinearResize
        (2 * convOutDim x.ht 1 1 0 1) (2 * convOutDim x.wd 1 1 0 1)
        (pointwise relu (bn2d p1.scale p1.shift
          (convTensor nin nout 1 1 0 1 1 p1.w (catTensor x skip))))) =
      some (pointwise relu (bn2d p2.scale p2.shift
        (convTensor nout nout ksize 1 pad 1 1 p2.w (bilinearResize
          (2 * convOutDim x.ht 1 1 0 1) (2 * convOutDim x.wd 1 1 0 1)
          (pointwise relu (bn2d p1.scale p1.shift
            (convTensor nin nout 1 1 0 1 1 p1.w (catTensor x skip)))))))) := by
    apply cba_forward_eq
    · rfl
    · exact one_ne_zero
    · show 1 * (ksize - 1) + 1 ≤ 2 * convOutDim x.ht 1 1 0 1 + 2 * pad
      omega
    · show 1 * (ksize - 1) + 1 ≤ 2 * convOutDim x.wd 1 1 0 1 + 2 * pad
      omega
  refine ⟨hcat, rfl, rfl, rfl,
    cond dflag (dropout2d (1 / 10) training mask
      (pointwise relu (bn2d p2.scale p2.shift
        (convTensor nout nout ksize 1 pad 1 1 p2.w (bilinearResize
          (2 * convOutDim x.ht 1 1 0 1) (2 * convOutDim x.wd 1 1 0 1)
          (pointwise relu (bn2d p1.scale p1.shift
            (convTensor nin nout 1 1 0 1 1 p1.w (catTensor x skip)))))))))
      (pointwise relu (bn2d p2.scale p2.shift
        (convTensor nout nout ksize 1 pad 1 1 p2.w (bilinearResize
          (2 * convOutDim x.ht 1 1 0 1) (2 * convOutDim x.wd 1 1 0 1)
          (pointwise relu (bn2d p1.scale p1.shift
            (convTensor nin nout 1 1 0 1 1 p1.w (catTensor x skip)))))))),
    ?_, ?_, ?_, ?_, ?_⟩
  · simp only [DecoderV2.forward, hcat, Option.some_bind, h1, hint, h2,
      Option.map_some']
    rfl
  · rw [condDropout_bsz]
    rfl
  · rw [condDropout_ch]
    rfl
  · rw [condDropout_ht]
    show convOutDim (2 * convOutDim x.ht 1 1 0 1) ksize 1 pad 1 =
      convOutDim (2 * x.ht) ksize 1 pad 1
    rw [e1]
  · rw [condDropout_wd]
    show convOutDim (2 * convOutDim x.wd 1 1 0 1) ksize 1 pad 1 =
      convOutDim (2 * x.wd) ksize 1 pad 1
    rw [e2]

/-- Witness for C7: DecoderV2(7, 5) with default ksize=3, pad=1 on a 1×3×4×6
input concatenated with a 1×4×4×6 skip, eval mode, no dropout. -/
theorem decoderv2_concat_before_resize_witness :
    cat2 (tZero 1 3 4 6) (tZero 1 4 4 6) =
      some (catTensor (tZero 1 3 4 6) (tZero 1 4 4 6)) ∧
    (catTensor (tZero 1 3 4 6) (tZero 1 4 4 6)).ht = (tZero 1 3 4 6).ht ∧
    (catTensor (tZero 1 3 4 6) (tZero 1 4 4 6)).wd = (tZero 1 3 4 6).wd ∧
    (catTensor (tZero 1 3 4 6) (tZero 1 4 4 6)).ch = 3 + 4 ∧
    ∃ y, (DecoderV2.init 7 5 3 1 1 false wZero wZero).forward
        false (fun _ _ => false) (tZero 1 3 4 6) (some (tZero 1 4 4 6)) =
        some y ∧
      y.bsz = 1 ∧ y.ch = 5 ∧
      y.ht = convOutDim (2 * 4) 3 1 1 1 ∧ y.wd = convOutDim (2 * 6) 3 1 1 1 :=
  decoderv2_concat_before_resize 7 5 3 1 1 false false wZero wZero
    (fun _ _ => false) (tZero 1 3 4 6) (tZero 1 4 4 6) rfl rfl rfl rfl
    (by decide) (by decide) (by decide) (by decide) (by decide)

theorem convOutDim_pos (a k s p d : Nat) : 1 ≤ convOutDim a k s p d :=
  Nat.le_add_left 1 _

theorem cba_forward_shape (m : Conv2DBNActiv) (x : Tensor)
    (h1 : x.ch = m.nin) (h5 : m.stride ≠ 0)
    (h6 : m.dilation * (m.ksize - 1) + 1 ≤ x.ht + 2 * m.pad)
    (h7 : m.dilation * (m.ksize - 1) + 1 ≤ x.wd + 2 * m.pad) :
    ∃ y, m.forward x = some y ∧ y.bsz = x.bsz ∧ y.ch = m.nout ∧
      y.ht = convOutDim x.ht m.ksize m.stride m.pad m.dilation ∧
      y.wd = convOutDim x.wd m.ksize m.stride m.pad m.dilation :=
  ⟨_, cba_forward_eq m x h1 h5 h6 h7, rfl, rfl, rfl, rfl⟩

theorem sep_forward_eq (m : SeperableConv2DBNActiv)
    (x : Tensor) (h1 : x.ch = m.nin) (hn : m.nin ≠ 0) (h5 : m.stride ≠ 0)
    (h6 : m.dilation * (m.ksize - 1) + 1 ≤ x.ht + 2 * m.pad)
    (h7 : m.dilation * (m.ksize - 1) + 1 ≤ x.wd + 2 * m.pad) :
    m.forward x = some (pointwise m.activ (bn2d m.scale m.shift
      (convTensor m.nin m.nout 1 1 0 1 1 m.wp
        (convTensor m.nin m.nin m.ksize m.stride m.pad m.dilation m.nin m.wd
          x)))) := by
  unfold SeperableConv2DBNActiv.forward
  rw [conv2d_eq_some m.nin m.nin m.ksize m.stride m.pad m.dilation m.nin m.wd
    x h1 (Nat.mod_self _) (Nat.mod_self _) hn h5 h6 h7, Option.some_bind,
    conv2d_eq_some m.nin m.nout 1 1 0 1 1 m.wp _ rfl (Nat.mod_one _)
      (Nat.mod_one _) one_ne_zero one_ne_zero ?_ ?_, Option.map_some']
  · show 1 * (1 - 1) + 1 ≤ convOutDim x.ht m.ksize m.stride m.pad m.dilation
      + 2 * 0
    have := convOutDim_pos x.ht m.ksize m.stride m.pad m.dilation
    omega
  · show 1 * (1 - 1) + 1 ≤ convOutDim x.wd m.ksize m.stride m.pad m.dilation
      + 2 * 0
    have := convOutDim_pos x.wd m.ksize m.stride m.pad m.dilation
    omega

theorem sep_forward_shape (m : SeperableConv2DBNActiv)
    (x : Tensor) (h1 : x.ch = m.nin) (hn : m.nin ≠ 0) (h5 : m.stride ≠ 0)
    (h6 : m.dilation * (m.ksize - 1) + 1 ≤ x.ht + 2 * m.pad)
    (h7 : m.dilation * (m.ksize - 1) + 1 ≤ x.wd + 2 * m.pad) :
    ∃ y, m.forward x = some y ∧ y.bsz = x.bsz ∧ y.ch = m.nout ∧
      y.ht = convOutDim x.ht m.ksize m.stride m.pad m.dilation ∧
      y.wd = convOutDim x.wd m.ksize m.stride m.pad m.dilation := by
  refine ⟨_, sep_forward_eq m x h1 hn h5 h6 h7,
    rfl, rfl, ?_, ?_⟩
  · show convOutDim (convOutDim x.ht m.ksize m.stride m.pad m.dilation)
      1 1 0 1 = convOutDim x.ht m.ksize m.stride m.pad m.dilation
    exact convOutDim_k1 _ (convOutDim_pos _ _ _ _ _)
  · show convOutDim (convOutDim x.wd m.ksize m.stride m.pad m.dilation)
      1 1 0 1 = convOutDim x.wd m.ksize m.stride m.pad m.dilation
    exact convOutDim_k1 _ (convOutDim_pos _ _ _ _ _)

theorem interpolateTo_shape (oh ow : Nat) (x : Tensor) (h1 : 1 ≤ x.ht)
    (h2 : 1 ≤ x.wd) (h3 : 1 ≤ oh) (h4 : 1 ≤ ow) :
    ∃ y, interpolateTo oh ow x = some y ∧ y.bsz = x.bsz ∧ y.ch = x.ch ∧
      y.ht = oh ∧ y.wd = ow := by
  unfold interpolateTo
  rw [if_pos ⟨h1, h2, h3, h4⟩]
  exact ⟨_, rfl, rfl, rfl, rfl, rfl⟩

theorem adaptiveAvgPool1_shape (x : Tensor) (h1 : 1 ≤ x.ht) (h2 : 1 ≤ x.wd) :
    ∃ y, adaptiveAvgPool1 x = some y ∧ y.bsz = x.bsz ∧ y.ch = x.ch ∧
      y.ht = 1 ∧ y.wd = 1 := by
  unfold adaptiveAvgPool1
  rw [if_pos ⟨h1, h2⟩]
  exact ⟨_, rfl, rfl, rfl, rfl, rfl⟩

/-- C8: `SeperableConv2DBNActiv` applies a depthwise convolution (groups =
nin, so output channel c0 draws only from input channel c0 and the channel
count stays nin), then a 1×1 pointwise convolution mapping nin to nout, then
the same batch normalization and activation as `Conv2DBNActiv`. The last
conjunct is channel independence: if two inputs of equal shape agree on
channel c0, the depthwise stage outputs agree on channel c0. -/
theorem seperable_depthwise_then_pointwise (m : SeperableConv2DBNActiv)
    (x y : Tensor) (hc : x.ch = m.nin) (hn : 1 ≤ m.nin) (hs : m.stride ≠ 0)
    (h6 : m.dilation * (m.ksize - 1) + 1 ≤ x.ht + 2 * m.pad)
    (h7 : m.dilation * (m.ksize - 1) + 1 ≤ x.wd + 2 * m.pad)
    (hyh : y.ht = x.ht) (hyw : y.wd = x.wd) :
    conv2d m.nin m.nin m.ksize m.stride m.pad m.dilation m.nin m.wd x =
      some (convTensor m.nin m.nin m.ksize m.stride m.pad m.dilation m.nin
        m.wd x) ∧
    (convTensor m.nin m.nin m.ksize m.stride m.pad m.dilation m.nin m.wd
      x).ch = m.nin ∧
    m.forward x = some (pointwise m.activ (bn2d m.scale m.shift
      (convTensor m.nin m.nout 1 1 0 1 1 m.wp
        (convTensor m.nin m.nin m.ksize m.stride m.pad m.dilation m.nin m.wd
          x)))) ∧
    (pointwise m.activ (bn2d m.scale m.shift
      (convTensor m.nin m.nout 1 1 0 1 1 m.wp
        (convTensor m.nin m.nin m.ksize m.stride m.pad m.dilation m.nin m.wd
          x)))).ch = m.nout ∧
    (∀ c0 b i j, (∀ b2 i2 j2, y.data b2 c0 i2 j2 = x.data b2 c0 i2 j2) →
      (convTensor m.nin m.nin m.ksize m.stride m.pad m.dilation m.nin m.wd
        y).data b c0 i j =
      (convTensor m.nin m.nin m.ksize m.stride m.pad m.dilation m.nin m.wd
        x).data b c0 i j) := by
  have hnn : 0 < m.nin := hn
  refine ⟨conv2d_eq_some m.nin m.nin m.ksize m.stride m.pad m.dilation m.nin
      m.wd x hc (Nat.mod_self _) (Nat.mod_self _) (by omega) hs h6 h7,
    rfl, sep_forward_eq m x hc (by omega) hs h6 h7, rfl,
    ?_⟩
  intro c0 b i j hagree
  simp only [convTensor, Nat.div_self hnn, Finset.sum_range_one, Nat.div_one,
    mul_one, add_zero]
  apply Finset.sum_congr rfl
  intro ki _
  apply Finset.sum_congr rfl
  intro kj _
  congr 1
  simp only [padRead, hyh, hyw]
  split_ifs with hcond
  · exact hagree _ _ _
  · rfl

/-- Witness for C8: a depthwise-separable block with nin=2, nout=3, ksize 3,
dilation 1, on two equal-shape 1×2×4×4 zero tensors, channel 0. -/
theorem seperable_depthwise_then_pointwise_witness :
    conv2d 2 2 3 1 1 1 2 wZero.w (tZero 1 2 4 4) =
      some (convTensor 2 2 3 1 1 1 2 wZero.w (tZero 1 2 4 4)) ∧
    (convTensor 2 2 3 1 1 1 2 wZero.w (tZero 1 2 4 4)).ch = 2 ∧
    SeperableConv2DBNActiv.forward
      ⟨2, 3, 3, 1, 1, 1, relu, wZero.w, wZero.w, wZero.scale, wZero.shift⟩
      (tZero 1 2 4 4) =
      some (pointwise relu (bn2d wZero.scale wZero.shift
        (convTensor 2 3 1 1 0 1 1 wZero.w
          (convTensor 2 2 3 1 1 1 2 wZero.w (tZero 1 2 4 4))))) ∧
    (pointwise relu (bn2d wZero.scale wZero.shift
      (convTensor 2 3 1 1 0 1 1 wZero.w
        (convTensor 2 2 3 1 1 1 2 wZero.w (tZero 1 2 4 4))))).ch = 3 ∧
    (∀ c0 b i j,
      (∀ b2 i2 j2, (tZero 1 2 4 4).data b2 c0 i2 j2 =
        (tZero 1 2 4 4).data b2 c0 i2 j2) →
      (convTensor 2 2 3 1 1 1 2 wZero.w (tZero 1 2 4 4)).data b c0 i j =
      (convTensor 2 2 3 1 1 1 2 wZero.w (tZero 1 2 4 4)).data b c0 i j) :=
  seperable_depthwise_then_pointwise
    ⟨2, 3, 3, 1, 1, 1, relu, wZero.w, wZero.w, wZero.scale, wZero.shift⟩
    (tZero 1 2 4 4) (tZero 1 2 4 4) rfl (by decide) (by decide) (by decide)
    (by decide) rfl rfl

/-- C9: In inference (eval) mode every runnable block in this file is
deterministic: the only randomness source is `Dropout2d`, which is the
identity outside training, so `Decoder`, `DecoderV2` and `ASPPModule` give
identical outputs under any two dropout random streams; the remaining
runnable blocks (`Conv2DBNActiv`, `SeperableConv2DBNActiv`, `Encoder`) take
no randomness source at all, their forwards being pure functions of the
learned parameters and the input. -/
theorem blocks_deterministic_in_eval (dec : Decoder) (dv2 : DecoderV2)
    (aspp : ASPPModule) (m1 m2 : Nat → Nat → Bool) (x : Tensor)
    (skip : Option Tensor) :
    dec.forward false m1 x skip = dec.forward false m2 x skip ∧
    dv2.forward false m1 x skip = dv2.forward false m2 x skip ∧
    aspp.forward false m1 x = aspp.forward false m2 x := by
  refine ⟨?_, ?_, ?_⟩ <;>
    simp only [Decoder.forward, DecoderV2.forward, ASPPModule.forward,
      dropout2d_eval, Bool.cond_self]

/-- C4: `ASPPModule` computes five parallel branches, (a) global average
pool to 1×1, a 1×1 convolution block, bilinear upsample back to the input
size; (b) a plain 1×1 convolution block; (c)-(e) three separable convolution
blocks at the configured dilation rates (4, 8, 16 by default), each branch
producing nin channels at the input spatial size; the five outputs are
concatenated along the channel axis (5*nin channels into the bottleneck) and
projected back to nin channels by a 1×1 convolution block followed by
dropout, so the output has the input's channel count and spatial size. -/
theorem asppmodule_preserves_shape (nin d1 d2 d3 : Nat) (p1 p2 pb : CBAWeights)
    (w3d w3p w4d w4p w5d w5p : Nat → Nat → Nat → Nat → ℚ)
    (sc3 sh3 sc4 sh4 sc5 sh5 : Nat → ℚ) (training : Bool)
    (mask : Nat → Nat → Bool) (x : Tensor) (A : ASPPModule)
    (hA : A = ASPPModule.init nin d1 d2 d3 p1 p2 pb w3d w3p w4d w4p w5d w5p
      sc3 sh3 sc4 sh4 sc5 sh5)
    (hc : x.ch = nin) (hn : 1 ≤ nin) (hh : 1 ≤ x.ht) (hw : 1 ≤ x.wd) :
    ∃ g g1 f1 f2 f3 f4 f5 y,
      adaptiveAvgPool1 x = some g ∧ g.ht = 1 ∧ g.wd = 1 ∧
      A.conv1.forward g = some g1 ∧
      interpolateTo x.ht x.wd g1 = some f1 ∧
      A.conv2.forward x = some f2 ∧
      A.conv3.forward x = some f3 ∧
      A.conv4.forward x = some f4 ∧
      A.conv5.forward x = some f5 ∧
      f1.ch = nin ∧ f1.ht = x.ht ∧ f1.wd = x.wd ∧
      f2.ch = nin ∧ f2.ht = x.ht ∧ f2.wd = x.wd ∧
      f3.ch = nin ∧ f3.ht = x.ht ∧ f3.wd = x.wd ∧
      f4.ch = nin ∧ f4.ht = x.ht ∧ f4.wd = x.wd ∧
      f5.ch = nin ∧ f5.ht = x.ht ∧ f5.wd = x.wd ∧
      A.conv3.dilation = d1 ∧ A.conv4.dilation = d2 ∧
      A.conv5.dilation = d3 ∧ A.bottleneck.nin = nin * 5 ∧
      A.forward training mask x = some y ∧
      y.bsz = x.bsz ∧ y.ch = nin ∧ y.ht = x.ht ∧ y.wd = x.wd := by
  subst hA
  obtain ⟨g, hg, hgb, hgc, hgh, hgw⟩ := adaptiveAvgPool1_shape x hh hw
  obtain ⟨g1, hg1, hg1b, hg1c, hg1h, hg1w⟩ :=
    cba_forward_shape
      (ASPPModule.init nin d1 d2 d3 p1 p2 pb w3d w3p w4d w4p w5d w5p
        sc3 sh3 sc4 sh4 sc5 sh5).conv1 g (hgc.trans hc) one_ne_zero
      (by rw [hgh]; exact Nat.le_refl 1) (by rw [hgw]; exact Nat.le_refl 1)
  obtain ⟨f1, hf1, hf1b, hf1c, hf1h, hf1w⟩ :=
    interpolateTo_shape x.ht x.wd g1
      (by rw [hg1h]; exact convOutDim_pos _ _ _ _ _)
      (by rw [hg1w]; exact convOutDim_pos _ _ _ _ _) hh hw
  obtain ⟨f2, hf2, hf2b, hf2c, hf2h, hf2w⟩ :=
    cba_forward_shape
      (ASPPModule.init nin d1 d2 d3 p1 p2 pb w3d w3p w4d w4p w5d w5p
        sc3 sh3 sc4 sh4 sc5 sh5).conv2 x hc one_ne_zero
      (by show 1 * (1 - 1) + 1 ≤ x.ht + 2 * 0; omega)
      (by show 1 * (1 - 1) + 1 ≤ x.wd + 2 * 0; omega)
  obtain ⟨f3, hf3, hf3b, hf3c, hf3h, hf3w⟩ :=
    sep_forward_shape
      (ASPPModule.init nin d1 d2 d3 p1 p2 pb w3d w3p w4d w4p w5d w5p
        sc3 sh3 sc4 sh4 sc5 sh5).conv3 x hc (by show nin ≠ 0; omega)
      one_ne_zero
      (by show d1 * (3 - 1) + 1 ≤ x.ht + 2 * d1; omega)
      (by show d1 * (3 - 1) + 1 ≤ x.wd + 2 * d1; omega)
  obtain ⟨f4, hf4, hf4b, hf4c, hf4h, hf4w⟩ :=
    sep_forward_shape
      (ASPPModule.init nin d1 d2 d3 p1 p2 pb w3d w3p w4d w4p w5d w5p
        sc3 sh3 sc4 sh4 sc5 sh5).conv4 x hc (by show nin ≠ 0; omega)
      one_ne_zero
      (by show d2 * (3 - 1) + 1 ≤ x.ht + 2 * d2; omega)
      (by show d2 * (3 - 1) + 1 ≤ x.wd + 2 * d2; omega)
  obtain ⟨f5, hf5, hf5b, hf5c, hf5h, hf5w⟩ :=
    sep_forward_shape
      (ASPPModule.init nin d1 d2 d3 p1 p2 pb w3d w3p w4d w4p w5d w5p
        sc3 sh3 sc4 sh4 sc5 sh5).conv5 x hc (by show nin ≠ 0; omega)
      one_ne_zero
      (by show d3 * (3 - 1) + 1 ≤ x.ht + 2 * d3; omega)
      (by show d3 * (3 - 1) + 1 ≤ x.wd + 2 * d3; omega)
  have hf1cn : f1.ch = nin := hf1c.trans hg1c
  have hf2cn : f2.ch = nin := hf2c
  have hf2hn : f2.ht = x.ht := by rw [hf2h]; exact convOutDim_k1 x.ht hh
  have hf2wn : f2.wd = x.wd := by rw [hf2w]; exact convOutDim_k1 x.wd hw
  have hf3cn : f3.ch = nin := hf3c
  have hf3hn : f3.ht = x.ht := by rw [hf3h]; exact convOutDim_dil x.ht d1 hh
  have hf3wn : f3.wd = x.wd := by rw [hf3w]; exact convOutDim_dil x.wd d1 hw
  have hf4cn : f4.ch = nin := hf4c
  have hf4hn : f4.ht = x.ht := by rw [hf4h]; exact convOutDim_dil x.ht d2 hh
  have hf4wn : f4.wd = x.wd := by rw [hf4w]; exact convOutDim_dil x.wd d2 hw
  have hf5cn : f5.ch = nin := hf5c
  have hf5hn : f5.ht = x.ht := by rw [hf5h]; exact convOutDim_dil x.ht d3 hh
  have hf5wn : f5.wd = x.wd := by rw [hf5w]; exact convOutDim_dil x.wd d3 hw
  have hf1bn : f1.bsz = x.bsz := (hf1b.trans hg1b).trans hgb
  have hc12 : cat2 f1 f2 = some (catTensor f1 f2) :=
    cat2_eq f1 f2 (hf1bn.trans hf2b.symm) (hf1h.trans hf2hn.symm)
      (hf1w.trans hf2wn.symm)
  have hc13 : cat2 (catTensor f1 f2) f3 =
      some (catTensor (catTensor f1 f2) f3) :=
    cat2_eq _ f3 (hf1bn.trans hf3b.symm) (hf1h.trans hf3hn.symm)
      (hf1w.trans hf3wn.symm)
  have hc14 : cat2 (catTensor (catTensor f1 f2) f3) f4 =
      some (catTensor (catTensor (catTensor f1 f2) f3) f4) :=
    cat2_eq _ f4 (hf1bn.trans hf4b.symm) (hf1h.trans hf4hn.symm)
      (hf1w.trans hf4wn.symm)
  have hc15 : cat2 (catTensor (catTensor (catTensor f1 f2) f3) f4) f5 =
      some (catTensor (catTensor (catTensor (catTensor f1 f2) f3) f4) f5) :=
    cat2_eq _ f5 (hf1bn.trans hf5b.symm) (hf1h.trans hf5hn.symm)
      (hf1w.trans hf5wn.symm)
  obtain ⟨bout, hbot, hbb, hbc, hbh, hbw⟩ :=
    cba_forward_shape
      (ASPPModule.init nin d1 d2 d3 p1 p2 pb w3d w3p w4d w4p w5d w5p
        sc3 sh3 sc4 sh4 sc5 sh5).bottleneck
      (catTensor (catTensor (catTensor (catTensor f1 f2) f3) f4) f5)
      (by show f1.ch + f2.ch + f3.ch + f4.ch + f5.ch = nin * 5
          rw [hf1cn, hf2cn, hf3cn, hf4cn, hf5cn]; omega)
      one_ne_zero
      (by show 1 * (1 - 1) + 1 ≤ f1.ht + 2 * 0; rw [hf1h]; omega)
      (by show 1 * (1 - 1) + 1 ≤ f1.wd + 2 * 0; rw [hf1w]; omega)
  refine ⟨g, g1, f1, f2, f3, f4, f5, dropout2d (1 / 10) training mask bout,
    hg, hgh, hgw, hg1, hf1, hf2, hf3, hf4, hf5,
    hf1cn, hf1h, hf1w, hf2cn, hf2hn, hf2wn, hf3cn, hf3hn, hf3wn,
    hf4cn, hf4hn, hf4wn, hf5cn, hf5hn, hf5wn, rfl, rfl, rfl, rfl,
    ?_, ?_, ?_, ?_, ?_⟩
  · simp only [ASPPModule.forward, hg, Option.some_bind, hg1, hf1, hf2, hf3,
      hf4, hf5, hc12, hc13, hc14, hc15, hbot, Option.map_some']
  · rw [dropout2d_bsz, hbb]
    show f1.bsz = x.bsz
    exact hf1bn
  · rw [dropout2d_ch]
    exact hbc
  · rw [dropout2d_ht, hbh]
    show convOutDim f1.ht 1 1 0 1 = x.ht
    rw [hf1h]
    exact convOutDim_k1 x.ht hh
  · rw [dropout2d_wd, hbw]
    show convOutDim f1.wd 1 1 0 1 = x.wd
    rw [hf1w]
    exact convOutDim_k1 x.wd hw

/-- Concrete ASPP module (nin=2, default dilations 4, 8, 16, zero weights)
used to instantiate the ASPP shape theorem. -/
def asppW : ASPPModule :=
  ASPPModule.init 2 4 8 16 wZero wZero wZero wZero.w wZero.w wZero.w wZero.w
    wZero.w wZero.w wZero.scale wZero.shift wZero.scale wZero.shift
    wZero.scale wZero.shift

/-- Witness for C4: the concrete ASPP module on a 1×2×3×5 zero tensor in
eval mode. -/
theorem asppmodule_preserves_shape_witness :
    ∃ g g1 f1 f2 f3 f4 f5 y,
      adaptiveAvgPool1 (tZero 1 2 3 5) = some g ∧ g.ht = 1 ∧ g.wd = 1 ∧
      asppW.conv1.forward g = some g1 ∧
      interpolateTo 3 5 g1 = some f1 ∧
      asppW.conv2.forward (tZero 1 2 3 5) = some f2 ∧
      asppW.conv3.forward (tZero 1 2 3 5) = some f3 ∧
      asppW.conv4.forward (tZero 1 2 3 5) = some f4 ∧
      asppW.conv5.forward (tZero 1 2 3 5) = some f5 ∧
      f1.ch = 2 ∧ f1.ht = 3 ∧ f1.wd = 5 ∧
      f2.ch = 2 ∧ f2.ht = 3 ∧ f2.wd = 5 ∧
      f3.ch = 2 ∧ f3.ht = 3 ∧ f3.wd = 5 ∧
      f4.ch = 2 ∧ f4.ht = 3 ∧ f4.wd = 5 ∧
      f5.ch = 2 ∧ f5.ht = 3 ∧ f5.wd = 5 ∧
      asppW.conv3.dilation = 4 ∧ asppW.conv4.dilation = 8 ∧
      asppW.conv5.dilation = 16 ∧ asppW.bottleneck.nin = 2 * 5 ∧
      asppW.forward false (fun _ _ => false) (tZero 1 2 3 5) = some y ∧
      y.bsz = 1 ∧ y.ch = 2 ∧ y.ht = 3 ∧ y.wd = 5 :=
  asppmodule_preserves_shape 2 4 8 16 wZero wZero wZero wZero.w wZero.w
    wZero.w wZero.w wZero.w wZero.w wZero.scale wZero.shift wZero.scale
    wZero.shift wZero.scale wZero.shift false (fun _ _ => false)
    (tZero 1 2 3 5) asppW rfl rfl (by decide) (by decide) (by decide)
